import Mathlib

/-!
Shallow embedding of the spacefm VFS directory core
(src/vfs/vfs-dir.cxx, src/vfs/vfs-file-monitor.cxx, src/vfs/vfs-async-thread.cxx).

Modelling conventions:
* `VFSFileInfo*` pointers are modelled as records carrying an `id : Nat`
  (the allocation identity) and the `name` field; pointer equality is
  equality of records (distinct allocations get distinct ids).
* The filesystem is an oracle `FSExists : String -> Bool`: `vfs_file_info_get`
  succeeds exactly when the full path exists.  The stat metadata that
  `vfs_file_info_get` / `vfs_file_info_load_special_info` refresh is not
  relevant to any claim and is abstracted away; what is kept is the success
  bit, the collection mutations, and the emitted signals.
* `g_signal_emit` calls are modelled by appending to a signal list, and each
  `vfs_file_info_get` call (a re-stat) by appending the statted path to a
  stat trace, in program order.
* The GLib timeout (`change_notify_timeout` / `notify_file_change`) only
  defers reconciliation; reconciliation itself (`update_changed_files`,
  `update_created_files`) is modelled directly and composed after the
  `emit_*` enqueue functions.  Mutexes, GObject refcounts on file infos and
  logging are not observable in any claim and are elided.
-/

namespace Spacefm

/-- A `VFSFileInfo*`: allocation identity plus the `name` field. -/
structure VFSFileInfo where
  id : Nat
  name : String
deriving DecidableEq, Repr

/-- The typed signals a `VFSDir` emits (vfs-dir.cxx `VFSDirSignal`).
`none` payloads model `nullptr` parameters. -/
inductive Signal where
  | file_created : VFSFileInfo → Signal
  | file_deleted : Option VFSFileInfo → Signal
  | file_changed : Option VFSFileInfo → Signal
  | thumbnail_loaded : VFSFileInfo → Signal
  | file_listed : Bool → Signal
deriving DecidableEq, Repr

/-- The mutable state of a `VFSDir` object (vfs-dir.hxx / vfs-dir.cxx).
`next_fi_id` is the allocator for fresh `VFSFileInfo` identities
(`vfs_file_info_new`), `task` models whether `dir->task` is non-null. -/
structure VFSDir where
  path : String
  file_list : List VFSFileInfo
  changed_files : List VFSFileInfo
  created_files : List String
  avoid_changes : Bool
  xhidden_count : Nat
  file_listed : Bool
  load_complete : Bool
  task : Bool
  next_fi_id : Nat
deriving DecidableEq, Repr

/-- Outcome of running a piece of `VFSDir` code: the updated directory, the
signals emitted (in order) and the paths re-statted (in order). -/
structure DirStep where
  dir : VFSDir
  sigs : List Signal
  stats : List String
deriving DecidableEq, Repr

/-- The filesystem oracle: which full paths currently exist. -/
def FSExists := String → Bool

/-- Model of `Glib::build_filename(dir, name)`. -/
def build_filename (dir name : String) : String :=
  dir ++ "/" ++ name

/-- Model of `vfs_dir_find_file` (vfs-dir.cxx:329): first entry of `file_list` that is
the given pointer or has an equal `name`. -/
def vfs_dir_find_file (dir : VFSDir) (file_name : String) (file : Option VFSFileInfo) :
    Option VFSFileInfo :=
  dir.file_list.find? (fun file2 => file == some file2 || file2.name == file_name)

/-- Model of `update_file_info` (vfs-dir.cxx:635): re-stat `dir->path/file->name`.
On success return `true` (metadata refresh abstracted).  On failure remove
the file from `file_list` (if present) and emit `file-deleted` with it,
returning `false`.  (The "dirty hack" that temporarily steals the `name`
string is memory management only: on the success path `vfs_file_info_get`
restores the same name from the path, and on the failure path the object is
evicted; the name field is therefore kept unchanged.) -/
def update_file_info (fs : FSExists) (dir : VFSDir) (file : VFSFileInfo) :
    Bool × DirStep :=
  let full_path := build_filename dir.path file.name
  if fs full_path then
    (true, ⟨dir, [], [full_path]⟩)
  else
    if dir.file_list.contains file then
      (false,
        ⟨{ dir with file_list := dir.file_list.filter (fun x => x != file) },
         [Signal.file_deleted (some file)], [full_path]⟩)
    else
      (false, ⟨dir, [], [full_path]⟩)

/-- The loop body of `update_changed_files` (vfs-dir.cxx:670): for each
pending changed file, `update_file_info`; when it returns `true` emit
`file-changed` with that file. -/
def update_changed_loop (fs : FSExists) : List VFSFileInfo → VFSDir → DirStep
  | [], dir => ⟨dir, [], []⟩
  | f :: rest, dir =>
    let r := update_file_info fs dir f
    let sigs := r.2.sigs ++ (if r.1 then [Signal.file_changed (some f)] else [])
    let srest := update_changed_loop fs rest r.2.dir
    ⟨srest.dir, sigs ++ srest.sigs, r.2.stats ++ srest.stats⟩

/-- Model of `update_changed_files` (vfs-dir.cxx:670): if the pending-changed set is
empty do nothing, else process it and clear it. -/
def update_changed_files (fs : FSExists) (dir : VFSDir) : DirStep :=
  if dir.changed_files.isEmpty then ⟨dir, [], []⟩
  else
    let s := update_changed_loop fs dir.changed_files dir
    ⟨{ s.dir with changed_files := [] }, s.sigs, s.stats⟩

/-- The loop body of `update_created_files` (vfs-dir.cxx:692): for each
pending created name, if no entry with that name exists, stat it and (when
it exists on disk) append a fresh `VFSFileInfo` and emit `file-created`;
if an entry already exists, run the changed-file path on it. -/
def update_created_loop (fs : FSExists) : List String → VFSDir → DirStep
  | [], dir => ⟨dir, [], []⟩
  | name :: rest, dir =>
    match vfs_dir_find_file dir name none with
    | none =>
      let full_path := build_filename dir.path name
      if fs full_path then
        let file : VFSFileInfo := ⟨dir.next_fi_id, name⟩
        let dir2 : VFSDir :=
          { dir with file_list := dir.file_list ++ [file],
                     next_fi_id := dir.next_fi_id + 1 }
        let srest := update_created_loop fs rest dir2
        ⟨srest.dir, Signal.file_created file :: srest.sigs, full_path :: srest.stats⟩
      else
        let srest := update_created_loop fs rest dir
        ⟨srest.dir, srest.sigs, full_path :: srest.stats⟩
    | some file_found =>
      let r := update_file_info fs dir file_found
      let sigs := r.2.sigs ++ (if r.1 then [Signal.file_changed (some file_found)] else [])
      let srest := update_created_loop fs rest r.2.dir
      ⟨srest.dir, sigs ++ srest.sigs, r.2.stats ++ srest.stats⟩

/-- Model of `update_created_files` (vfs-dir.cxx:692): if the pending-created list is
non-null, process it and clear it. -/
def update_created_files (fs : FSExists) (dir : VFSDir) : DirStep :=
  if dir.created_files.isEmpty then ⟨dir, [], []⟩
  else
    let s := update_created_loop fs dir.created_files dir
    ⟨{ s.dir with created_files := [] }, s.sigs, s.stats⟩

/-- Model of `vfs_dir_emit_file_created` (vfs-dir.cxx:343): ignore the directory's own
path, otherwise append the name to the pending-created list (the `force`
argument is explicitly unused; `avoid_changes` is ignored for creations). -/
def vfs_dir_emit_file_created (dir : VFSDir) (file_name : String) (force : Bool) : DirStep :=
  let _ := force
  if file_name == dir.path then ⟨dir, [], []⟩
  else ⟨{ dir with created_files := dir.created_files ++ [file_name] }, [], []⟩

/-- Model of `vfs_dir_emit_file_deleted` (vfs-dir.cxx:368): the directory's own path
clears the whole list and emits a single `file-deleted` with null payload;
otherwise the found file is enqueued into the pending-changed set (if not
already pending). -/
def vfs_dir_emit_file_deleted (dir : VFSDir) (file_name : String)
    (file : Option VFSFileInfo) : DirStep :=
  if file_name == dir.path then
    ⟨{ dir with file_list := [] }, [Signal.file_deleted none], []⟩
  else
    match vfs_dir_find_file dir file_name file with
    | some file_found =>
      if dir.changed_files.contains file_found then ⟨dir, [], []⟩
      else ⟨{ dir with changed_files := dir.changed_files ++ [file_found] }, [], []⟩
    | none => ⟨dir, [], []⟩

/-- Model of `vfs_dir_emit_file_changed` (vfs-dir.cxx:408): suppressed entirely when
`!force && avoid_changes`; the directory's own path emits `file-changed`
with null payload; otherwise the found entry, when not already pending, is
enqueued directly if `force`, else re-statted first (`update_file_info`) and
only enqueued plus signalled when it still exists. -/
def vfs_dir_emit_file_changed (fs : FSExists) (dir : VFSDir) (file_name : String)
    (file : Option VFSFileInfo) (force : Bool) : DirStep :=
  if !force && dir.avoid_changes then ⟨dir, [], []⟩
  else if file_name == dir.path then ⟨dir, [Signal.file_changed none], []⟩
  else
    match vfs_dir_find_file dir file_name file with
    | some file_found =>
      if dir.changed_files.contains file_found then ⟨dir, [], []⟩
      else
        if force then
          ⟨{ dir with changed_files := dir.changed_files ++ [file_found] }, [], []⟩
        else
          let r := update_file_info fs dir file_found
          if r.1 then
            ⟨{ r.2.dir with changed_files := r.2.dir.changed_files ++ [file_found] },
             r.2.sigs ++ [Signal.file_changed (some file_found)], r.2.stats⟩
          else
            r.2
    | none => ⟨dir, [], []⟩

/-- Model of `vfs_dir_emit_thumbnail_loaded` (vfs-dir.cxx:468): emit
`thumbnail-loaded` with the found entry, or do nothing when no entry in the
collection matches the completed file. -/
def vfs_dir_emit_thumbnail_loaded (dir : VFSDir) (file : VFSFileInfo) : DirStep :=
  match vfs_dir_find_file dir file.name (some file) with
  | some file_found => ⟨dir, [Signal.thumbnail_loaded file_found], []⟩
  | none => ⟨dir, [], []⟩

/-- Model of `on_list_task_finished` (vfs-dir.cxx:507): release the task
(`g_object_unref`, `dir->task = nullptr`), emit `file-listed` with the
cancellation flag, then mark `file_listed` and `load_complete`. -/
def on_list_task_finished (dir : VFSDir) (is_cancelled : Bool) : VFSDir × List Signal :=
  let dir1 := { dir with task := false }
  ({ dir1 with file_listed := true, load_complete := true },
   [Signal.file_listed is_cancelled])

/-- Model of `std::string::find(needle) != npos`, i.e. `ztd::contains(hay, needle)`:
`needle` occurs as a contiguous substring of `hay`. -/
def str_contains (hay needle : String) : Bool :=
  hay.data.tails.any (fun t => needle.data.isPrefixOf t)

/-- Model of `gethidden` (vfs-dir.cxx:518).  The `.hidden` file is modelled as
`none` when absent or not readable (`have_rw_access` fails), or `some lines`
(the result of repeated `std::getline`).  Each line read is appended to the
accumulator followed by a newline. -/
def gethidden (hidden_file : Option (List String)) : String :=
  match hidden_file with
  | none => ""
  | some lines => String.join (lines.map (fun line => line ++ "\n"))

/-- Model of `ishidden` (vfs-dir.cxx:545): `ztd::contains(hidden, file_name)` — a
substring test of the file name against the whole `.hidden` blob. -/
def ishidden (hidden : String) (file_name : String) : Bool :=
  str_contains hidden file_name

/-- Abstract steps of `vfs_dir_load_thread`, recorded in execution order. -/
inductive LoadStep where
  | install_monitor
  | read_hidden
  | enumerate : String → LoadStep
  | append : String → LoadStep
  | skip_hidden : String → LoadStep
deriving DecidableEq, Repr

/-- The `directory_iterator` loop of `vfs_dir_load_thread` (vfs-dir.cxx:593):
per entry, first the cancellation check (`break` on cancel), then the
`.hidden` suppression (increment `xhidden_count`, skip), then the stat
(`vfs_file_info_get`); only entries whose stat succeeds are appended.
`cancelled i` is the value `vfs_async_task_is_cancelled` returns at
iteration `i`. -/
def vfs_dir_load_entries (fs : FSExists) (hidden : String) (cancelled : Nat → Bool) :
    List String → Nat → VFSDir → VFSDir × List LoadStep
  | [], _, dir => (dir, [])
  | name :: rest, i, dir =>
    if cancelled i then (dir, [])
    else
      let full_path := build_filename dir.path name
      if ishidden hidden name then
        let r := vfs_dir_load_entries fs hidden cancelled rest (i + 1)
          { dir with xhidden_count := dir.xhidden_count + 1 }
        (r.1, LoadStep.enumerate name :: LoadStep.skip_hidden name :: r.2)
      else if fs full_path then
        let file : VFSFileInfo := ⟨dir.next_fi_id, name⟩
        let r := vfs_dir_load_entries fs hidden cancelled rest (i + 1)
          { dir with file_list := dir.file_list ++ [file],
                     next_fi_id := dir.next_fi_id + 1 }
        (r.1, LoadStep.enumerate name :: LoadStep.append name :: r.2)
      else
        let r := vfs_dir_load_entries fs hidden cancelled rest (i + 1) dir
        (r.1, LoadStep.enumerate name :: r.2)

/-- Model of `vfs_dir_load_thread` (vfs-dir.cxx:577): reset the listed/complete flags
and the hidden counter, install the filesystem monitor, read `.hidden`,
then enumerate the directory entries.  `entries` is what
`std::filesystem::directory_iterator` yields. -/
def vfs_dir_load_thread (fs : FSExists) (hidden_file : Option (List String))
    (cancelled : Nat → Bool) (entries : List String) (dir : VFSDir) :
    VFSDir × List LoadStep :=
  let dir0 :=
    { dir with file_listed := false, load_complete := false, xhidden_count := 0 }
  let hidden := gethidden hidden_file
  let r := vfs_dir_load_entries fs hidden cancelled entries 0 dir0
  (r.1, LoadStep.install_monitor :: LoadStep.read_hidden :: r.2)

/-! ### The directory cache (`dir_map`, `vfs_dir_get_by_path`) -/

/-- A `const char*` value: the allocation address together with the string it
points to.  Two distinct allocations holding equal text have distinct
`addr`. -/
structure CStr where
  addr : Nat
  content : String
deriving DecidableEq, Repr

/-- State of the process-wide registry `dir_map` (vfs-dir.cxx:94) plus
allocators.  `scans` records every `vfs_dir_load` start (one per constructed
`VFSDir`), identified by instance id. -/
structure CacheState where
  dir_map : List (CStr × Nat)
  next_id : Nat
  next_addr : Nat
  scans : List Nat
deriving DecidableEq, Repr

/-- Model of `dir_map.at(path)` where `dir_map : std::map<const char*, VFSDir*>`:
`std::less<const char*>` orders keys by pointer address, so the lookup finds
an entry exactly when the addresses coincide (an equivalent string at a
different address is a different key). -/
def dir_map_at (m : List (CStr × Nat)) (path : CStr) : Option Nat :=
  (m.find? (fun kv => kv.1.addr == path.addr)).map (fun kv => kv.2)

/-- Model of `vfs_dir_get_by_path` (vfs-dir.cxx:813) for a non-null `path`: on a hit,
`g_object_ref` the cached instance and return it; on a miss, `vfs_dir_new`
(which `strdup`s the path into a fresh allocation), start `vfs_dir_load`
asynchronously, and register the new instance under the strdup'd key. -/
def vfs_dir_get_by_path (st : CacheState) (path : CStr) : Nat × CacheState :=
  match dir_map_at st.dir_map path with
  | some d => (d, st)
  | none =>
    let d := st.next_id
    let key : CStr := ⟨st.next_addr, path.content⟩
    (d, { dir_map := st.dir_map ++ [(key, d)],
          next_id := d + 1,
          next_addr := st.next_addr + 1,
          scans := st.scans ++ [d] })

/-! ### The file monitor (`vfs-file-monitor.cxx`) -/

/-- A `VFSFileMonitorCallbackEntry`: the callback function pointer and the
`user_data` pointer, both as identities. -/
structure FMCallbackEntry where
  callback : Nat
  user_data : Nat
deriving DecidableEq, Repr

/-- A `VFSFileMonitor`: the symlink-resolved path it is keyed under, the
inotify watch descriptor, the manual reference count, and the callback
registrations in order. -/
structure VFSFileMonitor where
  path : String
  wd : Nat
  n_ref : Nat
  callbacks : List FMCallbackEntry
deriving DecidableEq, Repr

/-- State of `monitor_hash` (a `GHashTable` with `g_str_hash`/`g_str_equal`,
i.e. keyed by string content) plus the watch-descriptor allocator standing
for `inotify_add_watch` (each new watch gets a fresh descriptor). -/
structure MonitorState where
  monitor_hash : List VFSFileMonitor
  next_wd : Nat
deriving DecidableEq, Repr

/-- Model of `g_hash_table_lookup(monitor_hash, real_path)`: content-keyed. -/
def monitor_hash_lookup (ms : MonitorState) (real_path : String) : Option VFSFileMonitor :=
  ms.monitor_hash.find? (fun m => m.path == real_path)

/-- Model of `vfs_file_monitor_add` (vfs-file-monitor.cxx:138) after symlink
resolution, on the success path of `inotify_add_watch`: if no monitor is
registered for `real_path`, create one (the constructor performs the single
`ref_inc`, so `n_ref = 1`) with a fresh watch descriptor and insert it;
otherwise reuse the registered monitor as is.  In both cases append the
callback entry (when a callback is given).  Note the reuse path performs no
`ref_inc`. -/
def vfs_file_monitor_add (ms : MonitorState) (real_path : String)
    (cb : Option FMCallbackEntry) : MonitorState :=
  let new_cbs : List FMCallbackEntry := match cb with | some c => [c] | none => []
  match monitor_hash_lookup ms real_path with
  | none =>
    let monitor : VFSFileMonitor :=
      { path := real_path, wd := ms.next_wd, n_ref := 1, callbacks := new_cbs }
    { monitor_hash := ms.monitor_hash ++ [monitor], next_wd := ms.next_wd + 1 }
  | some _ =>
    { ms with
      monitor_hash := ms.monitor_hash.map (fun m =>
        if m.path == real_path then { m with callbacks := m.callbacks ++ new_cbs } else m) }

/-- Remove the first callback entry equal to `c` (the `break` after the
first match in `vfs_file_monitor_remove`). -/
def remove_first_cb : List FMCallbackEntry → FMCallbackEntry → List FMCallbackEntry
  | [], _ => []
  | x :: xs, c => if x == c then xs else x :: remove_first_cb xs c

/-- Model of `vfs_file_monitor_remove` (vfs-file-monitor.cxx:199) on the monitor
registered for `real_path`: drop the first matching callback entry, then
`ref_dec`; at refcount zero the destructor runs (`inotify_rm_watch`, removal
from `monitor_hash`, callbacks cleared). -/
def vfs_file_monitor_remove (ms : MonitorState) (real_path : String)
    (cb : Option FMCallbackEntry) : MonitorState :=
  match monitor_hash_lookup ms real_path with
  | none => ms
  | some fm =>
    let cbs : List FMCallbackEntry :=
      match cb with
      | some c => remove_first_cb fm.callbacks c
      | none => fm.callbacks
    if fm.n_ref - 1 == 0 then
      { ms with monitor_hash := ms.monitor_hash.filter (fun m => m.path != real_path) }
    else
      { ms with
        monitor_hash := ms.monitor_hash.map (fun m =>
          if m.path == real_path then { m with callbacks := cbs, n_ref := fm.n_ref - 1 }
          else m) }

/-! ### The async task (`vfs::async_thread`, vfs-async-thread.cxx) -/

/-- State of a `vfs::async_thread`: the four boolean fields, whether the
`std::jthread` member is joinable, and the `task_finish` events emitted so
far (each carrying the value of `canceled_` at emission time). -/
structure AsyncThread where
  running_ : Bool
  finished_ : Bool
  cancel_ : Bool
  canceled_ : Bool
  joinable : Bool
  events : List Bool
deriving DecidableEq, Repr

/-- A freshly constructed `async_thread`. -/
def async_thread_new : AsyncThread :=
  { running_ := false, finished_ := false, cancel_ := false, canceled_ := false,
    joinable := false, events := [] }

/-- Model of `cleanup(finalize)` (vfs-async-thread.cxx:92): if joinable, join, set
`finished_`, and — only when not finalizing — emit `task_finish` with the
current value of `canceled_`. -/
def async_thread_cleanup (t : AsyncThread) (finalize : Bool) : AsyncThread :=
  if !t.joinable then t
  else
    let t1 := { t with joinable := false, finished_ := true }
    if !finalize then { t1 with events := t1.events ++ [t1.canceled_] } else t1

/-- Model of `cancel()` (vfs-async-thread.cxx:61): if joinable, set `cancel_`, run
`cleanup(false)` (which joins and emits `task_finish` with the *current*
`canceled_`), and only afterwards set `canceled_ := true`. -/
def async_thread_cancel (t : AsyncThread) : AsyncThread :=
  if !t.joinable then t
  else
    let t1 := { t with cancel_ := true }
    let t2 := async_thread_cleanup t1 false
    { t2 with canceled_ := true }

/-- The prefix of `run()` (vfs-async-thread.cxx:38) up to spawning the
worker `std::jthread`: guard on `running_`, reset the flags, spawn (the
thread becomes joinable).  This is the state of the object while the scan
is in flight. -/
def async_thread_run_spawn (t : AsyncThread) : AsyncThread :=
  if t.running_ then t
  else
    { t with running_ := true, finished_ := false, canceled_ := false, joinable := true }

/-- The rest of `run()` after the worker finishes: join, clear `running_`,
set `finished_`, and emit `task_finish` with the current `canceled_`. -/
def async_thread_run_finish (t : AsyncThread) : AsyncThread :=
  let t1 := { t with joinable := false, running_ := false, finished_ := true }
  { t1 with events := t1.events ++ [t1.canceled_] }

/-- The names carried by the `file-created` signals of a signal list. -/
def created_names (sigs : List Signal) : List String :=
  sigs.filterMap (fun s =>
    match s with
    | Signal.file_created g => some g.name
    | _ => none)

/-! ### Basic facts about `update_file_info` -/

theorem ufi_true (fs : FSExists) (dir : VFSDir) (f : VFSFileInfo)
    (h : fs (build_filename dir.path f.name) = true) :
    update_file_info fs dir f = (true, ⟨dir, [], [build_filename dir.path f.name]⟩) := by
  simp [update_file_info, h]

theorem ufi_false_mem (fs : FSExists) (dir : VFSDir) (f : VFSFileInfo)
    (h : fs (build_filename dir.path f.name) = false) (hm : f ∈ dir.file_list) :
    update_file_info fs dir f =
      (false, ⟨{ dir with file_list := dir.file_list.filter (fun x => x != f) },
       [Signal.file_deleted (some f)], [build_filename dir.path f.name]⟩) := by
  simp [update_file_info, h, List.contains, List.elem_iff, hm]

theorem ufi_false_not_mem (fs : FSExists) (dir : VFSDir) (f : VFSFileInfo)
    (h : fs (build_filename dir.path f.name) = false) (hm : f ∉ dir.file_list) :
    update_file_info fs dir f = (false, ⟨dir, [], [build_filename dir.path f.name]⟩) := by
  simp [update_file_info, h, List.contains, List.elem_iff, hm]

theorem ufi_fst (fs : FSExists) (dir : VFSDir) (f : VFSFileInfo) :
    (update_file_info fs dir f).1 = fs (build_filename dir.path f.name) := by
  by_cases h : fs (build_filename dir.path f.name)
  · rw [ufi_true fs dir f h, h]
  · rw [Bool.not_eq_true] at h
    by_cases hm : f ∈ dir.file_list
    · rw [ufi_false_mem fs dir f h hm, h]
    · rw [ufi_false_not_mem fs dir f h hm, h]

theorem ufi_path (fs : FSExists) (dir : VFSDir) (f : VFSFileInfo) :
    (update_file_info fs dir f).2.dir.path = dir.path := by
  by_cases h : fs (build_filename dir.path f.name)
  · rw [ufi_true fs dir f h]
  · rw [Bool.not_eq_true] at h
    by_cases hm : f ∈ dir.file_list
    · rw [ufi_false_mem fs dir f h hm]
    · rw [ufi_false_not_mem fs dir f h hm]

theorem ufi_sublist (fs : FSExists) (dir : VFSDir) (f : VFSFileInfo) :
    List.Sublist (update_file_info fs dir f).2.dir.file_list dir.file_list := by
  by_cases h : fs (build_filename dir.path f.name)
  · rw [ufi_true fs dir f h]
  · rw [Bool.not_eq_true] at h
    by_cases hm : f ∈ dir.file_list
    · rw [ufi_false_mem fs dir f h hm]; exact List.filter_sublist _
    · rw [ufi_false_not_mem fs dir f h hm]

theorem ufi_mem_down (fs : FSExists) (dir : VFSDir) (f g : VFSFileInfo)
    (hg : g ∈ (update_file_info fs dir f).2.dir.file_list) : g ∈ dir.file_list :=
  (ufi_sublist fs dir f).subset hg

theorem ufi_mem_of_ne (fs : FSExists) (dir : VFSDir) (f g : VFSFileInfo)
    (hne : g ≠ f) (hg : g ∈ dir.file_list) :
    g ∈ (update_file_info fs dir f).2.dir.file_list := by
  by_cases h : fs (build_filename dir.path f.name)
  · rw [ufi_true fs dir f h]; exact hg
  · rw [Bool.not_eq_true] at h
    by_cases hm : f ∈ dir.file_list
    · rw [ufi_false_mem fs dir f h hm]
      exact List.mem_filter.mpr ⟨hg, by simp [hne]⟩
    · rw [ufi_false_not_mem fs dir f h hm]; exact hg

theorem ufi_not_mem_self (fs : FSExists) (dir : VFSDir) (f : VFSFileInfo)
    (h : fs (build_filename dir.path f.name) = false) :
    f ∉ (update_file_info fs dir f).2.dir.file_list := by
  by_cases hm : f ∈ dir.file_list
  · rw [ufi_false_mem fs dir f h hm]
    intro hmem
    have := (List.mem_filter.mp hmem).2
    simp at this
  · rw [ufi_false_not_mem fs dir f h hm]; exact hm

theorem ufi_no_changed (fs : FSExists) (dir : VFSDir) (g : VFSFileInfo)
    (x : Option VFSFileInfo) :
    Signal.file_changed x ∉ (update_file_info fs dir g).2.sigs := by
  by_cases h : fs (build_filename dir.path g.name)
  · rw [ufi_true fs dir g h]; simp
  · rw [Bool.not_eq_true] at h
    by_cases hm : g ∈ dir.file_list
    · rw [ufi_false_mem fs dir g h hm]; simp
    · rw [ufi_false_not_mem fs dir g h hm]; simp

/-! ### Facts about the pending-changed reconciliation loop -/

theorem changed_loop_cons (fs : FSExists) (g : VFSFileInfo) (rest : List VFSFileInfo)
    (dir : VFSDir) :
    update_changed_loop fs (g :: rest) dir =
      ⟨(update_changed_loop fs rest (update_file_info fs dir g).2.dir).dir,
       ((update_file_info fs dir g).2.sigs ++
         (if (update_file_info fs dir g).1 then [Signal.file_changed (some g)] else [])) ++
         (update_changed_loop fs rest (update_file_info fs dir g).2.dir).sigs,
       (update_file_info fs dir g).2.stats ++
         (update_changed_loop fs rest (update_file_info fs dir g).2.dir).stats⟩ := rfl

theorem changed_loop_path (fs : FSExists) (l : List VFSFileInfo) :
    ∀ dir : VFSDir, (update_changed_loop fs l dir).dir.path = dir.path := by
  induction l with
  | nil => intro dir; rfl
  | cons g rest ih =>
    intro dir
    rw [changed_loop_cons]
    show (update_changed_loop fs rest (update_file_info fs dir g).2.dir).dir.path = dir.path
    rw [ih, ufi_path]

theorem changed_loop_mono (fs : FSExists) (l : List VFSFileInfo) :
    ∀ (dir : VFSDir) (g : VFSFileInfo), g ∉ dir.file_list →
      g ∉ (update_changed_loop fs l dir).dir.file_list := by
  induction l with
  | nil => intro dir g hg; exact hg
  | cons x rest ih =>
    intro dir g hg
    rw [changed_loop_cons]
    exact ih _ g (fun hmem => hg (ufi_mem_down fs dir x g hmem))

theorem changed_loop_no_changed_dead (fs : FSExists) (f : VFSFileInfo)
    (l : List VFSFileInfo) :
    ∀ dir : VFSDir, fs (build_filename dir.path f.name) = false →
      Signal.file_changed (some f) ∉ (update_changed_loop fs l dir).sigs := by
  induction l with
  | nil => intro dir _; simp [update_changed_loop]
  | cons g rest ih =>
    intro dir hfs
    rw [changed_loop_cons]
    intro hmem
    have hmem2 : Signal.file_changed (some f) ∈
        ((update_file_info fs dir g).2.sigs ++
          (if (update_file_info fs dir g).1 then [Signal.file_changed (some g)] else [])) ++
          (update_changed_loop fs rest (update_file_info fs dir g).2.dir).sigs := hmem
    rcases List.mem_append.mp hmem2 with hmem3 | hmem3
    · rcases List.mem_append.mp hmem3 with hmem4 | hmem4
      · exact ufi_no_changed fs dir g (some f) hmem4
      · by_cases hr : (update_file_info fs dir g).1
        · rw [if_pos hr] at hmem4
          have hgf : g = f := by
            have := List.mem_singleton.mp hmem4
            exact (Option.some.inj (Signal.file_changed.inj this)).symm
          rw [ufi_fst, hgf, hfs] at hr
          exact Bool.false_ne_true hr
        · rw [if_neg hr] at hmem4
          exact List.not_mem_nil _ hmem4
    · have hfs2 : fs (build_filename (update_file_info fs dir g).2.dir.path f.name) = false := by
        rw [ufi_path]; exact hfs
      exact ih _ hfs2 hmem3

theorem changed_loop_alive (fs : FSExists) (f : VFSFileInfo) (l : List VFSFileInfo) :
    ∀ dir : VFSDir, fs (build_filename dir.path f.name) = true →
      f ∈ l → f ∈ dir.file_list →
      Signal.file_changed (some f) ∈ (update_changed_loop fs l dir).sigs ∧
      build_filename dir.path f.name ∈ (update_changed_loop fs l dir).stats := by
  induction l with
  | nil => intro dir _ hl _; exact absurd hl (List.not_mem_nil f)
  | cons g rest ih =>
    intro dir hfs hl hmem
    rw [changed_loop_cons]
    by_cases hgf : g = f
    · subst hgf
      rw [ufi_true fs dir g hfs]
      constructor
      · simp
      · simp
    · have hf2 : f ∈ rest := by
        rcases List.mem_cons.mp hl with h | h
        · exact absurd h.symm hgf
        · exact h
      have hmem2 := ufi_mem_of_ne fs dir g f (fun hh => hgf hh.symm) hmem
      have hfs2 : fs (build_filename (update_file_info fs dir g).2.dir.path f.name) = true := by
        rw [ufi_path]; exact hfs
      have hih := ih (update_file_info fs dir g).2.dir hfs2 hf2 hmem2
      constructor
      · exact List.mem_append_right _ hih.1
      · have hst := hih.2
        rw [ufi_path] at hst
        exact List.mem_append_right _ hst

theorem changed_loop_dead_mem (fs : FSExists) (f : VFSFileInfo) (l : List VFSFileInfo) :
    ∀ dir : VFSDir, fs (build_filename dir.path f.name) = false →
      f ∈ l → f ∈ dir.file_list →
      Signal.file_deleted (some f) ∈ (update_changed_loop fs l dir).sigs ∧
      f ∉ (update_changed_loop fs l dir).dir.file_list ∧
      build_filename dir.path f.name ∈ (update_changed_loop fs l dir).stats := by
  induction l with
  | nil => intro dir _ hl _; exact absurd hl (List.not_mem_nil f)
  | cons g rest ih =>
    intro dir hfs hl hmem
    rw [changed_loop_cons]
    by_cases hgf : g = f
    · subst hgf
      rw [ufi_false_mem fs dir g hfs hmem]
      refine ⟨by simp, ?_, by simp⟩
      have hout : g ∉ (dir.file_list.filter (fun x => x != g)) := by
        intro hmem2
        have := (List.mem_filter.mp hmem2).2
        simp at this
      exact changed_loop_mono fs rest _ g hout
    · have hf2 : f ∈ rest := by
        rcases List.mem_cons.mp hl with h | h
        · exact absurd h.symm hgf
        · exact h
      have hmem2 := ufi_mem_of_ne fs dir g f (fun hh => hgf hh.symm) hmem
      have hfs2 : fs (build_filename (update_file_info fs dir g).2.dir.path f.name) = false := by
        rw [ufi_path]; exact hfs
      have hih := ih (update_file_info fs dir g).2.dir hfs2 hf2 hmem2
      refine ⟨List.mem_append_right _ hih.1, hih.2.1, ?_⟩
      have hst := hih.2.2
      rw [ufi_path] at hst
      exact List.mem_append_right _ hst

/-! ### Facts about the pending-created reconciliation loop -/

theorem created_loop_cons_found (fs : FSExists) (m : String) (rest : List String)
    (dir : VFSDir) (g : VFSFileInfo) (hfind : vfs_dir_find_file dir m none = some g) :
    update_created_loop fs (m :: rest) dir =
      ⟨(update_created_loop fs rest (update_file_info fs dir g).2.dir).dir,
       ((update_file_info fs dir g).2.sigs ++
         (if (update_file_info fs dir g).1 then [Signal.file_changed (some g)] else [])) ++
         (update_created_loop fs rest (update_file_info fs dir g).2.dir).sigs,
       (update_file_info fs dir g).2.stats ++
         (update_created_loop fs rest (update_file_info fs dir g).2.dir).stats⟩ := by
  conv_lhs => rw [update_created_loop]
  rw [hfind]

theorem created_loop_cons_absent_exists (fs : FSExists) (m : String) (rest : List String)
    (dir : VFSDir) (hfind : vfs_dir_find_file dir m none = none)
    (hfs : fs (build_filename dir.path m) = true) :
    update_created_loop fs (m :: rest) dir =
      ⟨(update_created_loop fs rest
          { dir with file_list := dir.file_list ++ [⟨dir.next_fi_id, m⟩],
                     next_fi_id := dir.next_fi_id + 1 }).dir,
       Signal.file_created ⟨dir.next_fi_id, m⟩ ::
         (update_created_loop fs rest
           { dir with file_list := dir.file_list ++ [⟨dir.next_fi_id, m⟩],
                      next_fi_id := dir.next_fi_id + 1 }).sigs,
       build_filename dir.path m ::
         (update_created_loop fs rest
           { dir with file_list := dir.file_list ++ [⟨dir.next_fi_id, m⟩],
                      next_fi_id := dir.next_fi_id + 1 }).stats⟩ := by
  conv_lhs => rw [update_created_loop]
  rw [hfind]
  simp [hfs]

theorem created_loop_cons_absent_gone (fs : FSExists) (m : String) (rest : List String)
    (dir : VFSDir) (hfind : vfs_dir_find_file dir m none = none)
    (hfs : fs (build_filename dir.path m) = false) :
    update_created_loop fs (m :: rest) dir =
      ⟨(update_created_loop fs rest dir).dir,
       (update_created_loop fs rest dir).sigs,
       build_filename dir.path m :: (update_created_loop fs rest dir).stats⟩ := by
  conv_lhs => rw [update_created_loop]
  rw [hfind]
  simp [hfs]

theorem created_names_append (a b : List Signal) :
    created_names (a ++ b) = created_names a ++ created_names b := by
  simp [created_names]

theorem created_names_deleted (x : Option VFSFileInfo) (sigs : List Signal) :
    created_names (Signal.file_deleted x :: sigs) = created_names sigs := rfl

theorem created_names_changed (x : Option VFSFileInfo) (sigs : List Signal) :
    created_names (Signal.file_changed x :: sigs) = created_names sigs := rfl

theorem created_names_created (g : VFSFileInfo) (sigs : List Signal) :
    created_names (Signal.file_created g :: sigs) = g.name :: created_names sigs := rfl

/-- The key invariant of the pending-created reconciliation loop: as long as
an entry named `n` is present (or `n`'s backing path does not exist), the
loop never emits a `file-created` for `n` and never grows the number of
entries named `n` beyond the bound `N`. -/
theorem created_loop_inv (fs : FSExists) (n : String) (N : Nat)
    (l : List String) :
    ∀ dir : VFSDir,
      (dir.file_list.filter (fun g => g.name == n)).length ≤ N →
      ((∃ g ∈ dir.file_list, g.name = n) ∨ fs (build_filename dir.path n) = false) →
      (((update_created_loop fs l dir).dir.file_list.filter
          (fun g => g.name == n)).length ≤ N) ∧
      n ∉ created_names (update_created_loop fs l dir).sigs := by
  induction l with
  | nil =>
    intro dir hcount hI
    exact ⟨hcount, by simp [update_created_loop, created_names]⟩
  | cons m rest ih =>
    intro dir hcount hI
    cases hfind : vfs_dir_find_file dir m none with
    | none =>
      have hnone : ∀ gg ∈ dir.file_list, gg.name ≠ m := by
        intro gg hgg
        have h2 := hfind
        unfold vfs_dir_find_file at h2
        rw [List.find?_eq_none] at h2
        have := h2 gg hgg
        simpa using this
      by_cases hfs : fs (build_filename dir.path m)
      · have hmn : m ≠ n := by
          intro hmn
          rcases hI with ⟨g, hg, hgname⟩ | hIfs
          · exact hnone g hg (by rw [hgname]; exact hmn.symm)
          · rw [hmn, hIfs] at hfs
            exact Bool.false_ne_true hfs
        rw [created_loop_cons_absent_exists fs m rest dir hfind hfs]
        have hcount2 :
            (({ dir with
                file_list := dir.file_list ++ [⟨dir.next_fi_id, m⟩],
                next_fi_id := dir.next_fi_id + 1 } : VFSDir).file_list.filter
              (fun g => g.name == n)).length ≤ N := by
          show (((dir.file_list ++ [(⟨dir.next_fi_id, m⟩ : VFSFileInfo)]).filter
            (fun g => g.name == n)).length ≤ N)
          rw [List.filter_append]
          simp [hmn]
          exact hcount
        have hI2 :
            (∃ g ∈ ({ dir with
                file_list := dir.file_list ++ [⟨dir.next_fi_id, m⟩],
                next_fi_id := dir.next_fi_id + 1 } : VFSDir).file_list, g.name = n) ∨
            fs (build_filename ({ dir with
                file_list := dir.file_list ++ [⟨dir.next_fi_id, m⟩],
                next_fi_id := dir.next_fi_id + 1 } : VFSDir).path n) = false := by
          rcases hI with ⟨g, hg, hgname⟩ | hIfs
          · exact Or.inl ⟨g, by simp [hg], hgname⟩
          · exact Or.inr hIfs
        have hih := ih _ hcount2 hI2
        refine ⟨hih.1, ?_⟩
        rw [created_names_created]
        intro hmem
        rcases List.mem_cons.mp hmem with h | h
        · exact hmn h.symm
        · exact hih.2 h
      · rw [Bool.not_eq_true] at hfs
        rw [created_loop_cons_absent_gone fs m rest dir hfind hfs]
        exact ih dir hcount hI
    | some g =>
      have hgname : g.name = m := by
        have hp := List.find?_some hfind
        simpa using hp
      have hgmem : g ∈ dir.file_list := List.mem_of_find?_eq_some hfind
      rw [created_loop_cons_found fs m rest dir g hfind]
      by_cases hfs : fs (build_filename dir.path g.name)
      · rw [ufi_true fs dir g hfs]
        have hih := ih dir hcount hI
        refine ⟨hih.1, ?_⟩
        intro hmem
        rw [created_names_append] at hmem
        rcases List.mem_append.mp hmem with h | h
        · simp [created_names] at h
        · exact hih.2 h
      · rw [Bool.not_eq_true] at hfs
        rw [ufi_false_mem fs dir g hfs hgmem]
        have hcount3 :
            ((dir.file_list.filter (fun x => x != g)).filter
              (fun gg => gg.name == n)).length ≤ N :=
          le_trans ((List.filter_sublist _).filter _).length_le hcount
        have hI3 :
            (∃ w ∈ ({ dir with
                file_list := dir.file_list.filter (fun x => x != g) } : VFSDir).file_list,
              w.name = n) ∨
            fs (build_filename ({ dir with
                file_list := dir.file_list.filter (fun x => x != g) } : VFSDir).path n)
              = false := by
          rcases hI with ⟨w, hw, hwname⟩ | hIfs
          · by_cases hwg : w = g
            · right
              rw [← hwname, hwg]
              exact hfs
            · left
              exact ⟨w, List.mem_filter.mpr ⟨hw, by simp [hwg]⟩, hwname⟩
          · exact Or.inr hIfs
        have hih := ih _ hcount3 hI3
        refine ⟨hih.1, ?_⟩
        intro hmem
        rw [created_names_append] at hmem
        rcases List.mem_append.mp hmem with h | h
        · have hr : (false, (⟨{ dir with
              file_list := dir.file_list.filter (fun x => x != g) },
              [Signal.file_deleted (some g)],
              [build_filename dir.path g.name]⟩ : DirStep)).1 = false := rfl
          rw [if_neg (by rw [hr]; exact Bool.false_ne_true)] at h
          simp [created_names] at h
        · exact hih.2 h

theorem emit_created_sigs (dir : VFSDir) (nm : String) (force : Bool) :
    (vfs_dir_emit_file_created dir nm force).sigs = [] := by
  unfold vfs_dir_emit_file_created
  split <;> rfl

theorem ucf_of_nonempty (fs : FSExists) (dir : VFSDir) (h : dir.changed_files ≠ []) :
    update_changed_files fs dir =
      ⟨{ (update_changed_loop fs dir.changed_files dir).dir with changed_files := [] },
       (update_changed_loop fs dir.changed_files dir).sigs,
       (update_changed_loop fs dir.changed_files dir).stats⟩ := by
  simp [update_changed_files, h]

/-! ### Claim theorems (simple cases) -/

/-- Claim C4: a deleted event whose name equals the directory's own path
empties the whole file collection and emits exactly one `file-deleted`
signal with a null payload (and no per-file deletion signals), for every
directory state and every prior collection size. -/
theorem claim_C4 (dir : VFSDir) (file : Option VFSFileInfo) :
    vfs_dir_emit_file_deleted dir dir.path file =
      ⟨{ dir with file_list := [] }, [Signal.file_deleted none], []⟩ := by
  simp [vfs_dir_emit_file_deleted]

/-- Claim C10: the thumbnail-loaded signal is emitted only if an entry
matching the completed file is still present in the collection; when no
matching entry remains, the completion is dropped silently with no
signal. -/
theorem claim_C10 (dir : VFSDir) (file : VFSFileInfo) :
    ((vfs_dir_emit_thumbnail_loaded dir file).sigs ≠ [] →
      ∃ g ∈ dir.file_list, g.name = file.name) ∧
    ((∀ g ∈ dir.file_list, g.name ≠ file.name) →
      (vfs_dir_emit_thumbnail_loaded dir file).sigs = []) := by
  constructor
  · intro hne
    unfold vfs_dir_emit_thumbnail_loaded at hne
    cases hfind : vfs_dir_find_file dir file.name (some file) with
    | none => rw [hfind] at hne; simp at hne
    | some g =>
      have hmem : g ∈ dir.file_list := List.mem_of_find?_eq_some hfind
      have hp := List.find?_some hfind
      simp only [Bool.or_eq_true, beq_iff_eq] at hp
      rcases hp with hp | hp
      · exact ⟨g, hmem, by rw [Option.some.inj hp]⟩
      · exact ⟨g, hmem, hp⟩
  · intro hno
    unfold vfs_dir_emit_thumbnail_loaded
    cases hfind : vfs_dir_find_file dir file.name (some file) with
    | none => rfl
    | some g =>
      exfalso
      have hmem : g ∈ dir.file_list := List.mem_of_find?_eq_some hfind
      have hp := List.find?_some hfind
      simp only [Bool.or_eq_true, beq_iff_eq] at hp
      rcases hp with hp | hp
      · exact hno g hmem (by rw [Option.some.inj hp])
      · exact hno g hmem hp

/-- Claim C10 witness: with an empty collection, a thumbnail completion is
dropped without any signal. -/
theorem claim_C10_witness :
    (vfs_dir_emit_thumbnail_loaded
      ⟨"/r", [], [], [], false, 0, false, false, false, 0⟩ ⟨0, "a"⟩).sigs = [] :=
  (claim_C10 ⟨"/r", [], [], [], false, 0, false, false, false, 0⟩ ⟨0, "a"⟩).2
    (by intro g hg; simp at hg)

/-- Claim C8: in every execution of the directory load thread, the monitor
installation is the first step of the trace, and every entry-enumeration or
append step occurs strictly after it. -/
theorem claim_C8 (fs : FSExists) (hidden_file : Option (List String))
    (cancelled : Nat → Bool) (entries : List String) (dir : VFSDir)
    (i : Nat) (name : String)
    (h : (vfs_dir_load_thread fs hidden_file cancelled entries dir).2.get? i
           = some (LoadStep.enumerate name) ∨
         (vfs_dir_load_thread fs hidden_file cancelled entries dir).2.get? i
           = some (LoadStep.append name)) :
    (vfs_dir_load_thread fs hidden_file cancelled entries dir).2.get? 0
      = some LoadStep.install_monitor ∧ 0 < i := by
  have h0 : (vfs_dir_load_thread fs hidden_file cancelled entries dir).2.get? 0
      = some LoadStep.install_monitor := by
    simp [vfs_dir_load_thread]
  refine ⟨h0, ?_⟩
  rcases Nat.eq_zero_or_pos i with hi | hi
  · subst hi
    rcases h with h | h <;> rw [h0] at h <;> simp at h
  · exact hi

/-- Claim C8 witness: a concrete scan of one entry; its enumeration step sits
at index 2, after the monitor installation at index 0. -/
theorem claim_C8_witness :
    (vfs_dir_load_thread (fun _ => true) none (fun _ => false) ["a"]
        ⟨"/r", [], [], [], false, 0, false, false, false, 0⟩).2.get? 0
      = some LoadStep.install_monitor ∧ 0 < 2 :=
  claim_C8 (fun _ => true) none (fun _ => false) ["a"]
    ⟨"/r", [], [], [], false, 0, false, false, false, 0⟩ 2 "a" (Or.inl (by decide))

/-- Claim C1 (failing input): `dir_map` is a `std::map<const char*, VFSDir*>`
keyed by pointer address, so after a directory for `/tmp` is registered, a
second `vfs_dir_get_by_path` with an equal path string held at a different
address misses the cache, constructs a second instance and starts a second
scan — contradicting cache uniqueness. -/
theorem claim_C1_bug :
    (((vfs_dir_get_by_path ⟨[], 0, 100, []⟩ ⟨0, "/tmp"⟩).2.dir_map.map
        (fun kv => kv.1.content)) = ["/tmp"]) ∧
    (⟨1, "/tmp"⟩ : CStr).content = (⟨0, "/tmp"⟩ : CStr).content ∧
    (vfs_dir_get_by_path (vfs_dir_get_by_path ⟨[], 0, 100, []⟩ ⟨0, "/tmp"⟩).2
        ⟨1, "/tmp"⟩).1
      ≠ (vfs_dir_get_by_path ⟨[], 0, 100, []⟩ ⟨0, "/tmp"⟩).1 ∧
    (vfs_dir_get_by_path (vfs_dir_get_by_path ⟨[], 0, 100, []⟩ ⟨0, "/tmp"⟩).2
        ⟨1, "/tmp"⟩).2.scans.length = 2 := by
  decide

/-- Claim C9 (failing input): a second registration against the same real
path reuses the single monitor and watch descriptor and appends its callback
entry, but performs no `ref_inc`; removing just one of the two registrations
then drives the refcount to zero and destroys the shared monitor together
with the other registration's callback. -/
theorem claim_C9_bug :
    (vfs_file_monitor_add (vfs_file_monitor_add ⟨[], 7⟩ "/tmp" (some ⟨1, 10⟩))
        "/tmp" (some ⟨2, 20⟩)).monitor_hash
      = [⟨"/tmp", 7, 1, [⟨1, 10⟩, ⟨2, 20⟩]⟩] ∧
    (vfs_file_monitor_add (vfs_file_monitor_add ⟨[], 7⟩ "/tmp" (some ⟨1, 10⟩))
        "/tmp" (some ⟨2, 20⟩)).next_wd = 8 ∧
    (vfs_file_monitor_remove
        (vfs_file_monitor_add (vfs_file_monitor_add ⟨[], 7⟩ "/tmp" (some ⟨1, 10⟩))
          "/tmp" (some ⟨2, 20⟩))
        "/tmp" (some ⟨1, 10⟩)).monitor_hash = [] := by
  decide

/-- Claim C7 (failing input): cancelling an in-flight scan task emits the
single `task_finish` event with payload `false` — `canceled_` is assigned
only after `cleanup(false)` has already emitted — so the directory's
`file-listed` signal reports an uncancelled listing even though the scan was
cancelled.  The `on_list_task_finished` part (flags set, task released) does
hold. -/
theorem claim_C7_bug :
    (async_thread_cancel (async_thread_run_spawn async_thread_new)).cancel_ = true ∧
    (async_thread_cancel (async_thread_run_spawn async_thread_new)).canceled_ = true ∧
    (async_thread_cancel (async_thread_run_spawn async_thread_new)).events = [false] ∧
    (on_list_task_finished ⟨"/r", [], [], [], false, 0, false, false, true, 0⟩ false).2
      = [Signal.file_listed false] ∧
    (on_list_task_finished ⟨"/r", [], [], [], false, 0, false, false, true, 0⟩
        false).1.file_listed = true ∧
    (on_list_task_finished ⟨"/r", [], [], [], false, 0, false, false, true, 0⟩
        false).1.load_complete = true ∧
    (on_list_task_finished ⟨"/r", [], [], [], false, 0, false, false, true, 0⟩
        false).1.task = false := by
  decide

/-- Claim C3: for an entry `f` of the collection whose backing path no longer
exists, processing the pending change for `f` re-stats the path, removes `f`
from the collection, emits `file-deleted` carrying `f` and no `file-changed`
for `f`; and `update_file_info` returns `false` in exactly this case —
`true` whenever the path exists (the final conjunct, for an arbitrary
entry `g`). -/
theorem claim_C3 (fs : FSExists) (dir : VFSDir) (f g : VFSFileInfo)
    (h1 : f ∈ dir.file_list) (h2 : f ∈ dir.changed_files)
    (h3 : fs (build_filename dir.path f.name) = false) :
    f ∉ (update_changed_files fs dir).dir.file_list ∧
    Signal.file_deleted (some f) ∈ (update_changed_files fs dir).sigs ∧
    Signal.file_changed (some f) ∉ (update_changed_files fs dir).sigs ∧
    build_filename dir.path f.name ∈ (update_changed_files fs dir).stats ∧
    (update_file_info fs dir f).1 = false ∧
    (update_file_info fs dir g).1 = fs (build_filename dir.path g.name) := by
  have hne : dir.changed_files ≠ [] := by
    intro h
    rw [h] at h2
    exact List.not_mem_nil f h2
  rw [ucf_of_nonempty fs dir hne]
  have hdead := changed_loop_dead_mem fs f dir.changed_files dir h3 h2 h1
  have hnoc := changed_loop_no_changed_dead fs f dir.changed_files dir h3
  exact ⟨hdead.2.1, hdead.1, hnoc, hdead.2.2,
    by rw [ufi_fst, h3], ufi_fst fs dir g⟩

/-- Claim C3 witness: a concrete directory holding one entry `a` that is
pending-changed while its path is gone; reconciliation removes it, emits
`file-deleted a` and no `file-changed a`, after a re-stat; the
reconciliation function returns `false` on it and `true` on a path that
exists is instantiated by the final conjunct. -/
theorem claim_C3_witness :
    (⟨0, "a"⟩ : VFSFileInfo) ∉
      (update_changed_files (fun _ => false)
        ⟨"/r", [⟨0, "a"⟩], [⟨0, "a"⟩], [], false, 0, false, false, false, 1⟩).dir.file_list ∧
    Signal.file_deleted (some ⟨0, "a"⟩) ∈
      (update_changed_files (fun _ => false)
        ⟨"/r", [⟨0, "a"⟩], [⟨0, "a"⟩], [], false, 0, false, false, false, 1⟩).sigs ∧
    Signal.file_changed (some ⟨0, "a"⟩) ∉
      (update_changed_files (fun _ => false)
        ⟨"/r", [⟨0, "a"⟩], [⟨0, "a"⟩], [], false, 0, false, false, false, 1⟩).sigs ∧
    build_filename "/r" "a" ∈
      (update_changed_files (fun _ => false)
        ⟨"/r", [⟨0, "a"⟩], [⟨0, "a"⟩], [], false, 0, false, false, false, 1⟩).stats ∧
    (update_file_info (fun _ => false)
        ⟨"/r", [⟨0, "a"⟩], [⟨0, "a"⟩], [], false, 0, false, false, false, 1⟩ ⟨0, "a"⟩).1
      = false ∧
    (update_file_info (fun _ => false)
        ⟨"/r", [⟨0, "a"⟩], [⟨0, "a"⟩], [], false, 0, false, false, false, 1⟩ ⟨5, "b"⟩).1
      = (fun _ => false) (build_filename "/r" "b") :=
  claim_C3 (fun _ => false)
    ⟨"/r", [⟨0, "a"⟩], [⟨0, "a"⟩], [], false, 0, false, false, false, 1⟩
    ⟨0, "a"⟩ ⟨5, "b"⟩ (by decide) (by decide) rfl

/-- Claim C5: with `avoid_changes` set and `force = false`, a changed event
for any name is a complete no-op (no re-stat, no signal, pending-changed set
untouched); with `force = true` (for an ordinary name resolving to an
existing entry whose path exists) the event leads, via the following
reconciliation, to a re-stat of the entry's path and a `file-changed` signal
carrying it. -/
theorem claim_C5 (fs : FSExists) (dir : VFSDir) (file_name : String)
    (file : Option VFSFileInfo) (f : VFSFileInfo) :
    (dir.avoid_changes = true →
      vfs_dir_emit_file_changed fs dir file_name file false = ⟨dir, [], []⟩) ∧
    (file_name ≠ dir.path →
     vfs_dir_find_file dir file_name file = some f →
     fs (build_filename dir.path f.name) = true →
     Signal.file_changed (some f) ∈
       (update_changed_files fs
         (vfs_dir_emit_file_changed fs dir file_name file true).dir).sigs ∧
     build_filename dir.path f.name ∈
       (update_changed_files fs
         (vfs_dir_emit_file_changed fs dir file_name file true).dir).stats) := by
  constructor
  · intro h
    simp [vfs_dir_emit_file_changed, h]
  · intro hname hfind hfs
    have hmemf : f ∈ dir.file_list := List.mem_of_find?_eq_some hfind
    by_cases hc : dir.changed_files.contains f
    · have hmemc : f ∈ dir.changed_files := List.elem_iff.mp hc
      have hd1 : vfs_dir_emit_file_changed fs dir file_name file true = ⟨dir, [], []⟩ := by
        simp [vfs_dir_emit_file_changed, hname, hfind, hmemc]
      rw [hd1]
      have hne : dir.changed_files ≠ [] := by
        intro h
        rw [h] at hmemc
        exact List.not_mem_nil f hmemc
      rw [ucf_of_nonempty fs dir hne]
      exact changed_loop_alive fs f dir.changed_files dir hfs hmemc hmemf
    · have hnm : f ∉ dir.changed_files := fun hm => hc (List.elem_iff.mpr hm)
      have hd1 : vfs_dir_emit_file_changed fs dir file_name file true =
          ⟨{ dir with changed_files := dir.changed_files ++ [f] }, [], []⟩ := by
        simp [vfs_dir_emit_file_changed, hname, hfind, hnm]
      rw [hd1]
      have hmemc : f ∈ dir.changed_files ++ [f] := by simp
      have hne : dir.changed_files ++ [f] ≠ [] := by simp
      have hd2 := ucf_of_nonempty fs { dir with changed_files := dir.changed_files ++ [f] }
        (by simp)
      rw [hd2]
      exact changed_loop_alive fs f (dir.changed_files ++ [f])
        { dir with changed_files := dir.changed_files ++ [f] } hfs hmemc hmemf

/-- Claim C5 witness: a concrete directory with `avoid_changes` set: the
unforced changed event is a no-op, and the forced changed event for the
present entry `a` leads to a re-stat and a `file-changed a` signal at
reconciliation. -/
theorem claim_C5_witness :
    vfs_dir_emit_file_changed (fun _ => true)
      ⟨"/r", [⟨0, "a"⟩], [], [], true, 0, false, false, false, 1⟩ "a" none false
      = ⟨⟨"/r", [⟨0, "a"⟩], [], [], true, 0, false, false, false, 1⟩, [], []⟩ ∧
    Signal.file_changed (some ⟨0, "a"⟩) ∈
      (update_changed_files (fun _ => true)
        (vfs_dir_emit_file_changed (fun _ => true)
          ⟨"/r", [⟨0, "a"⟩], [], [], true, 0, false, false, false, 1⟩
          "a" none true).dir).sigs ∧
    build_filename "/r" "a" ∈
      (update_changed_files (fun _ => true)
        (vfs_dir_emit_file_changed (fun _ => true)
          ⟨"/r", [⟨0, "a"⟩], [], [], true, 0, false, false, false, 1⟩
          "a" none true).dir).stats :=
  ⟨(claim_C5 (fun _ => true)
      ⟨"/r", [⟨0, "a"⟩], [], [], true, 0, false, false, false, 1⟩ "a" none ⟨0, "a"⟩).1 rfl,
   ((claim_C5 (fun _ => true)
      ⟨"/r", [⟨0, "a"⟩], [], [], true, 0, false, false, false, 1⟩ "a" none ⟨0, "a"⟩).2
      (by decide) (by decide) rfl).1,
   ((claim_C5 (fun _ => true)
      ⟨"/r", [⟨0, "a"⟩], [], [], true, 0, false, false, false, 1⟩ "a" none ⟨0, "a"⟩).2
      (by decide) (by decide) rfl).2⟩

/-- Claim C6: replaying a created event for a name already present in the
collection (here, twice in a row on a directory with an empty pending set)
adds no duplicate entry — the number of entries with that name does not grow
— and emits no `file-created` signal for that name: reconciliation degrades
to the changed-event path (or a no-op), and the enqueue calls themselves
emit nothing. -/
theorem claim_C6 (fs : FSExists) (dir : VFSDir) (f : VFSFileInfo)
    (hf : f ∈ dir.file_list) (hcf : dir.created_files = []) :
    (((update_created_files fs
        (vfs_dir_emit_file_created
          (vfs_dir_emit_file_created dir f.name false).dir
          f.name false).dir).dir.file_list.filter
        (fun g => g.name == f.name)).length
      ≤ (dir.file_list.filter (fun g => g.name == f.name)).length) ∧
    f.name ∉ created_names
      (update_created_files fs
        (vfs_dir_emit_file_created
          (vfs_dir_emit_file_created dir f.name false).dir f.name false).dir).sigs ∧
    (vfs_dir_emit_file_created dir f.name false).sigs = [] ∧
    (vfs_dir_emit_file_created
      (vfs_dir_emit_file_created dir f.name false).dir f.name false).sigs = [] := by
  by_cases hp : f.name = dir.path
  · have he1 : vfs_dir_emit_file_created dir f.name false = ⟨dir, [], []⟩ := by
      simp [vfs_dir_emit_file_created, hp]
    have he2 : (vfs_dir_emit_file_created
        (vfs_dir_emit_file_created dir f.name false).dir f.name false).dir = dir := by
      rw [he1]
      show (vfs_dir_emit_file_created dir f.name false).dir = dir
      rw [he1]
    rw [he2]
    have hu : update_created_files fs dir = ⟨dir, [], []⟩ := by
      simp [update_created_files, hcf]
    rw [hu]
    exact ⟨le_refl _, by simp [created_names],
      emit_created_sigs _ _ _, emit_created_sigs _ _ _⟩
  · have he1 : vfs_dir_emit_file_created dir f.name false =
        ⟨{ dir with created_files := dir.created_files ++ [f.name] }, [], []⟩ := by
      simp [vfs_dir_emit_file_created, hp]
    have he2 : (vfs_dir_emit_file_created
        (vfs_dir_emit_file_created dir f.name false).dir f.name false).dir
        = { dir with created_files := [f.name, f.name] } := by
      rw [he1]
      show (vfs_dir_emit_file_created
        { dir with created_files := dir.created_files ++ [f.name] } f.name false).dir
        = { dir with created_files := [f.name, f.name] }
      simp [vfs_dir_emit_file_created, hp, hcf]
    rw [he2]
    have hu : update_created_files fs { dir with created_files := [f.name, f.name] } =
        ⟨{ (update_created_loop fs [f.name, f.name]
              { dir with created_files := [f.name, f.name] }).dir with
           created_files := [] },
         (update_created_loop fs [f.name, f.name]
           { dir with created_files := [f.name, f.name] }).sigs,
         (update_created_loop fs [f.name, f.name]
           { dir with created_files := [f.name, f.name] }).stats⟩ := by
      simp [update_created_files]
    rw [hu]
    have hinv := created_loop_inv fs f.name
      ((dir.file_list.filter (fun g => g.name == f.name)).length)
      [f.name, f.name] { dir with created_files := [f.name, f.name] }
      (le_refl _) (Or.inl ⟨f, hf, rfl⟩)
    exact ⟨hinv.1, hinv.2, emit_created_sigs _ _ _, emit_created_sigs _ _ _⟩

/-- Claim C6 witness: a concrete directory holding entry `a`; two replayed
created events for `a` leave a single entry named `a` and emit no
`file-created` for it. -/
theorem claim_C6_witness :
    (((update_created_files (fun _ => true)
        (vfs_dir_emit_file_created
          (vfs_dir_emit_file_created
            ⟨"/r", [⟨0, "a"⟩], [], [], false, 0, false, false, false, 1⟩
            "a" false).dir "a" false).dir).dir.file_list.filter
        (fun g => g.name == "a")).length
      ≤ (([⟨0, "a"⟩] : List VFSFileInfo).filter (fun g => g.name == "a")).length) ∧
    "a" ∉ created_names
      (update_created_files (fun _ => true)
        (vfs_dir_emit_file_created
          (vfs_dir_emit_file_created
            ⟨"/r", [⟨0, "a"⟩], [], [], false, 0, false, false, false, 1⟩
            "a" false).dir "a" false).dir).sigs ∧
    (vfs_dir_emit_file_created
      ⟨"/r", [⟨0, "a"⟩], [], [], false, 0, false, false, false, 1⟩ "a" false).sigs = [] ∧
    (vfs_dir_emit_file_created
      (vfs_dir_emit_file_created
        ⟨"/r", [⟨0, "a"⟩], [], [], false, 0, false, false, false, 1⟩
        "a" false).dir "a" false).sigs = [] :=
  claim_C6 (fun _ => true)
    ⟨"/r", [⟨0, "a"⟩], [], [], false, 0, false, false, false, 1⟩
    ⟨0, "a"⟩ (by decide) rfl

/-! ### Facts about the scan loop without cancellation -/

theorem load_cons_hidden (fs : FSExists) (hidden : String) (cancelled : Nat → Bool)
    (nm : String) (rest : List String) (i : Nat) (dir : VFSDir)
    (hc : cancelled i = false) (hh : ishidden hidden nm = true) :
    vfs_dir_load_entries fs hidden cancelled (nm :: rest) i dir =
      ((vfs_dir_load_entries fs hidden cancelled rest (i + 1)
          { dir with xhidden_count := dir.xhidden_count + 1 }).1,
       LoadStep.enumerate nm :: LoadStep.skip_hidden nm ::
         (vfs_dir_load_entries fs hidden cancelled rest (i + 1)
           { dir with xhidden_count := dir.xhidden_count + 1 }).2) := by
  conv_lhs => rw [vfs_dir_load_entries]
  simp [hc, hh]

theorem load_cons_app (fs : FSExists) (hidden : String) (cancelled : Nat → Bool)
    (nm : String) (rest : List String) (i : Nat) (dir : VFSDir)
    (hc : cancelled i = false) (hh : ishidden hidden nm = false)
    (hfs : fs (build_filename dir.path nm) = true) :
    vfs_dir_load_entries fs hidden cancelled (nm :: rest) i dir =
      ((vfs_dir_load_entries fs hidden cancelled rest (i + 1)
          { dir with file_list := dir.file_list ++ [⟨dir.next_fi_id, nm⟩],
                     next_fi_id := dir.next_fi_id + 1 }).1,
       LoadStep.enumerate nm :: LoadStep.append nm ::
         (vfs_dir_load_entries fs hidden cancelled rest (i + 1)
           { dir with file_list := dir.file_list ++ [⟨dir.next_fi_id, nm⟩],
                      next_fi_id := dir.next_fi_id + 1 }).2) := by
  conv_lhs => rw [vfs_dir_load_entries]
  simp [hc, hh, hfs]

theorem load_cons_skip (fs : FSExists) (hidden : String) (cancelled : Nat → Bool)
    (nm : String) (rest : List String) (i : Nat) (dir : VFSDir)
    (hc : cancelled i = false) (hh : ishidden hidden nm = false)
    (hfs : fs (build_filename dir.path nm) = false) :
    vfs_dir_load_entries fs hidden cancelled (nm :: rest) i dir =
      ((vfs_dir_load_entries fs hidden cancelled rest (i + 1) dir).1,
       LoadStep.enumerate nm ::
         (vfs_dir_load_entries fs hidden cancelled rest (i + 1) dir).2) := by
  conv_lhs => rw [vfs_dir_load_entries]
  simp [hc, hh, hfs]

theorem load_entries_no_cancel (fs : FSExists) (hidden : String) (entries : List String) :
    ∀ (i : Nat) (dir : VFSDir),
      (vfs_dir_load_entries fs hidden (fun _ => false) entries i dir).1.path = dir.path ∧
      (vfs_dir_load_entries fs hidden (fun _ => false) entries i dir).1.xhidden_count
        = dir.xhidden_count + (entries.filter (fun nm => ishidden hidden nm)).length ∧
      (vfs_dir_load_entries fs hidden (fun _ => false) entries i dir).1.file_list.map
          (fun f => f.name)
        = dir.file_list.map (fun f => f.name)
          ++ entries.filter
              (fun nm => !ishidden hidden nm && fs (build_filename dir.path nm)) := by
  induction entries with
  | nil => intro i dir; simp [vfs_dir_load_entries]
  | cons nm rest ih =>
    intro i dir
    by_cases hh : ishidden hidden nm
    · rw [load_cons_hidden fs hidden (fun _ => false) nm rest i dir rfl hh]
      obtain ⟨hp, hx, hm⟩ := ih (i + 1) { dir with xhidden_count := dir.xhidden_count + 1 }
      refine ⟨hp, ?_, ?_⟩
      · rw [hx, List.filter_cons_of_pos (by simpa using hh)]
        simp
        omega
      · rw [hm, List.filter_cons_of_neg (by simp [hh])]
    · rw [Bool.not_eq_true] at hh
      by_cases hfs : fs (build_filename dir.path nm)
      · rw [load_cons_app fs hidden (fun _ => false) nm rest i dir rfl hh hfs]
        obtain ⟨hp, hx, hm⟩ := ih (i + 1)
          { dir with file_list := dir.file_list ++ [⟨dir.next_fi_id, nm⟩],
                     next_fi_id := dir.next_fi_id + 1 }
        refine ⟨hp, ?_, ?_⟩
        · rw [hx, List.filter_cons_of_neg (by simp [hh])]
        · rw [hm, List.filter_cons_of_pos (by simp [hh, hfs])]
          simp
      · rw [Bool.not_eq_true] at hfs
        rw [load_cons_skip fs hidden (fun _ => false) nm rest i dir rfl hh hfs]
        obtain ⟨hp, hx, hm⟩ := ih (i + 1) dir
        refine ⟨hp, ?_, ?_⟩
        · rw [hx, List.filter_cons_of_neg (by simp [hh])]
        · rw [hm, List.filter_cons_of_neg (by simp [hh, hfs])]

/-- Claim C2, amended: an enumerated entry is suppressed from the collection
(counted in the hidden count) exactly when its filename occurs as a
substring of the `.hidden` file's content (the newline-joined lines) — the
source tests substring containment, not per-line equality; in particular the
concrete instance of the claim (a `.hidden` of `secret.txt` over
`secret.txt` and `visible.txt`) does yield only `visible.txt` with hidden
count 1. -/
theorem claim_C2_amended :
    (∀ (fs : FSExists) (hidden_file : Option (List String)) (entries : List String)
      (dir : VFSDir),
      (vfs_dir_load_thread fs hidden_file (fun _ => false) entries dir).1.xhidden_count
        = (entries.filter (fun nm => ishidden (gethidden hidden_file) nm)).length ∧
      (vfs_dir_load_thread fs hidden_file (fun _ => false) entries dir).1.file_list.map
          (fun f => f.name)
        = dir.file_list.map (fun f => f.name)
          ++ entries.filter (fun nm =>
              !ishidden (gethidden hidden_file) nm && fs (build_filename dir.path nm))) ∧
    ((vfs_dir_load_thread (fun _ => true) (some ["secret.txt"]) (fun _ => false)
        ["secret.txt", "visible.txt"]
        ⟨"/r", [], [], [], false, 0, false, false, false, 0⟩).1.file_list.map
      (fun f => f.name) = ["visible.txt"] ∧
     (vfs_dir_load_thread (fun _ => true) (some ["secret.txt"]) (fun _ => false)
        ["secret.txt", "visible.txt"]
        ⟨"/r", [], [], [], false, 0, false, false, false, 0⟩).1.xhidden_count = 1) := by
  constructor
  · intro fs hidden_file entries dir
    have h := load_entries_no_cancel fs (gethidden hidden_file) entries 0
      { dir with file_listed := false, load_complete := false, xhidden_count := 0 }
    constructor
    · show (vfs_dir_load_entries fs (gethidden hidden_file) (fun _ => false) entries 0
        { dir with file_listed := false, load_complete := false,
                   xhidden_count := 0 }).1.xhidden_count = _
      rw [h.2.1]
      simp
    · show (vfs_dir_load_entries fs (gethidden hidden_file) (fun _ => false) entries 0
        { dir with file_listed := false, load_complete := false,
                   xhidden_count := 0 }).1.file_list.map (fun f => f.name) = _
      rw [h.2.2]
  · constructor
    · decide
    · decide

/-- Claim C2 counterexample: with `.hidden` holding the single line
`secret.txt`, an enumerated entry named `secret.tx` — which equals none of
the newline-separated names — is nonetheless suppressed (it is a substring
of the `.hidden` blob): the scan of `[secret.tx, visible.txt]` over an
all-existing filesystem yields only `visible.txt` with hidden count 1. -/
theorem claim_C2_counterexample :
    ((vfs_dir_load_thread (fun _ => true) (some ["secret.txt"]) (fun _ => false)
        ["secret.tx", "visible.txt"]
        ⟨"/r", [], [], [], false, 0, false, false, false, 0⟩).1.file_list.map
      (fun f => f.name)) = ["visible.txt"] ∧
    (vfs_dir_load_thread (fun _ => true) (some ["secret.txt"]) (fun _ => false)
        ["secret.tx", "visible.txt"]
        ⟨"/r", [], [], [], false, 0, false, false, false, 0⟩).1.xhidden_count = 1 ∧
    "secret.tx" ∉ ["secret.txt"] := by
  decide

end Spacefm
